import Mathlib

/-!
Shallow embedding of the NutriTrackAI core pipeline.

The Python sources embedded here are:
  * `src/analytics/nutrition_analyzer.py` — `analyze_daily_nutrition` and
    `get_weekly_trend`;
  * `utils/food_parser.py` — `parse_food_input` and `extract_portion_info`;
  * `utils/date_helpers.py` — `parse_date`.

Modelling conventions:
  * Python floats are modelled as `ℚ` (the analysed claims are about exact
    arithmetic structure, not rounding of binary floats).
  * A nutrition dict is a function `Nutrient → Option ℚ`: `none` covers both
    a missing key and a stored `None` (the code treats the two identically:
    `if key in nutrition and nutrition[key] is not None`).
  * Calendar dates are integers (days); `date.weekday()` becomes `d % 7`
    (Monday = 0 up to an irrelevant global alignment).
  * External collaborators (`get_user_metrics`, `get_daily_entries`,
    `dateutil.parser.parse`) are passed as explicit parameters.
  * The textual report assembled by the Python code is modelled as a
    structured record of the values that the text renders.
-/

namespace NutriTrack

/-! ### The seven nutrient keys of the totals dict -/

inductive Nutrient
  | calories
  | protein
  | carbohydrates
  | fat
  | fiber
  | sugar
  | sodium
  deriving DecidableEq

/-- The keys of the `totals` dict, in its literal insertion order
(`nutrition_analyzer.py` lines 25–33). -/
def nutrientKeys : List Nutrient :=
  [Nutrient.calories, Nutrient.protein, Nutrient.carbohydrates, Nutrient.fat,
   Nutrient.fiber, Nutrient.sugar, Nutrient.sodium]

/-- A nutrition dict: `none` is a missing key or a stored Python `None`. -/
abbrev NutrientRecord := Nutrient → Option ℚ

/-- Running totals, one rational per nutrient key. -/
abbrev Totals := Nutrient → ℚ

/-- One food entry as consumed by the analyzer: its food name, the hour of
its timestamp (the only timestamp component the analyzer reads), and its
nutrition dict. -/
structure FoodEntry where
  food_item : String
  hour : ℕ
  nutrition_data : NutrientRecord

/-- Point update of the totals dict (`totals[key] += ...`). -/
def updateTotal (t : Totals) (k : Nutrient) (x : ℚ) : Totals :=
  fun j => if j = k then x else t j

/-- One iteration of `for key in totals.keys()` (lines 42–46): if the key is
present and non-null its value is added, otherwise `unknown_values` is set. -/
def addNutrient (tf : Totals × Bool) (n : NutrientRecord) (k : Nutrient) :
    Totals × Bool :=
  match n k with
  | some v => (updateTotal tf.1 k (tf.1 k + v), tf.2)
  | none => (tf.1, true)

/-- The inner key loop of `analyze_daily_nutrition` for one entry. -/
def accumEntry (tf : Totals × Bool) (n : NutrientRecord) : Totals × Bool :=
  nutrientKeys.foldl (fun acc k => addNutrient acc n k) tf

/-- The entry loop of `analyze_daily_nutrition` (lines 38–46): totals start
at all zeroes and `unknown_values` starts `False`. -/
def nutritionTotals (entries : List FoodEntry) : Totals × Bool :=
  entries.foldl (fun acc e => accumEntry acc e.nutrition_data)
    ((fun _ => 0 : Totals), false)

/-! ### Meal bucketing -/

inductive Meal
  | breakfast
  | lunch
  | snacks
  | dinner
  deriving DecidableEq

/-- The hour-of-day bucketing of lines 49–57. -/
def mealOf (hour : ℕ) : Meal :=
  if hour < 10 then Meal.breakfast
  else if hour < 14 then Meal.lunch
  else if hour < 18 then Meal.snacks
  else Meal.dinner

/-- The `items_by_meal` dict of lines 59–62, read at one meal key: food
names are appended in entry order. -/
def itemsByMeal (entries : List FoodEntry) (m : Meal) : List String :=
  entries.foldl
    (fun acc e => if mealOf e.hour = m then acc ++ [e.food_item] else acc) []

/-! ### Goal comparison and macro ratio -/

inductive GoalStatus
  | over (excess : ℚ)
  | remaining (left : ℚ)
  deriving DecidableEq

/-- Lines 72–80: `calories_goal = user_metrics.get('calories_goal')` followed
by Python truthiness (`if calories_goal:` — a goal of `0` is falsy, so it is
handled exactly like an absent goal), then the strict comparison
`totals['calories'] > calories_goal`. -/
def goalComparison (totalCalories : ℚ) (caloriesGoal : Option ℚ) :
    Option GoalStatus :=
  match caloriesGoal with
  | none => none
  | some goal =>
    if goal = 0 then none
    else if goal < totalCalories then some (GoalStatus.over (totalCalories - goal))
    else some (GoalStatus.remaining (goal - totalCalories))

/-- `total_calories_from_macros` of lines 94–98. -/
def macroCalories (t : Totals) : ℚ :=
  t Nutrient.protein * 4 + t Nutrient.carbohydrates * 4 + t Nutrient.fat * 9

/-- Lines 100–105: the macro-ratio line is produced only when
`total_calories_from_macros > 0`; otherwise no ratio appears in the report. -/
def macroRatio (t : Totals) : Option (ℚ × ℚ × ℚ) :=
  let tc := macroCalories t
  if 0 < tc then
    some (t Nutrient.protein * 4 / tc * 100,
          t Nutrient.carbohydrates * 4 / tc * 100,
          t Nutrient.fat * 9 / tc * 100)
  else none

/-- The structured content of the report text assembled on lines 68–116. -/
structure DailyReport where
  totals : Totals
  goal_status : Option GoalStatus
  macro_ratio : Option (ℚ × ℚ × ℚ)
  meals : Meal → List String
  incomplete : Bool

/-- `analyze_daily_nutrition` (lines 8–116).  The `caloriesGoal` parameter is
the `calories_goal` value read from the external `get_user_metrics` store.
An empty entry list yields `none` (the code returns the distinguished
"No food entries found for analysis." string). -/
def analyze_daily_nutrition (entries : List FoodEntry)
    (caloriesGoal : Option ℚ) : Option DailyReport :=
  match entries with
  | [] => none
  | _ :: _ =>
    let tf := nutritionTotals entries
    some { totals := tf.1,
           goal_status := goalComparison (tf.1 Nutrient.calories) caloriesGoal,
           macro_ratio := macroRatio tf.1,
           meals := itemsByMeal entries,
           incomplete := tf.2 }

/-! ### Concrete entries used by witnesses and counterexamples -/

/-- A nutrition dict with every field missing. -/
def emptyRecord : NutrientRecord := fun _ => none

/-- An entry carrying no nutrition data at all. -/
def entryNoData : FoodEntry := ⟨"mystery stew", 12, emptyRecord⟩

/-- An entry with every nutrient known and equal to 2. -/
def entryAllTwo : FoodEntry := ⟨"eggs", 8, fun _ => some 2⟩

/-- An entry with every nutrient 1 except a missing sodium field. -/
def entryNoSodium : FoodEntry :=
  ⟨"tea", 9, fun k => match k with
    | Nutrient.sodium => none
    | _ => some 1⟩

/-! ### Character utilities shared by the text parsers

The parsing functions of `utils/food_parser.py` and `utils/date_helpers.py`
are embedded over `List Char`.  Anchored regular expressions are translated
by hand, preserving the left-to-right alternation order and the backtracking
behaviour of Python's `re` on the concrete patterns involved. -/

/-- ASCII lower-casing of one character (Python `str.lower` on ASCII text). -/
def lowerChar (c : Char) : Char :=
  if 'A' ≤ c ∧ c ≤ 'Z' then Char.ofNat (c.toNat + 32) else c

/-- Python `str.lower` on ASCII text. -/
def lowerList (l : List Char) : List Char := l.map lowerChar

/-- Python whitespace (`str.strip`, regex `\s`), ASCII subset. -/
def isSpace (c : Char) : Bool :=
  c == ' ' || c == '\t' || c == '\n' || c == '\r' || c == '\x0b' || c == '\x0c'

/-- Python `str.strip()`. -/
def trimChars (l : List Char) : List Char :=
  ((l.dropWhile isSpace).reverse.dropWhile isSpace).reverse

/-- One anchored substitution `re.sub(r'^<head><alt1|...|altN>', '', s)` with
a literal head and a trailing alternation: regex alternation tries the
alternatives left to right, and the pattern ends with the alternation, so the
first alternative that fits at the start wins and the matched characters are
removed. -/
def stripHeadAlts (headPat : List Char) (alts : List (List Char))
    (s : List Char) : List Char :=
  if headPat.isPrefixOf s then
    let rest := s.drop headPat.length
    match alts.find? (fun a => a.isPrefixOf rest) with
    | some a => rest.drop a.length
    | none => s
  else s

/-- The verb alternation of the first prefix pattern of `parse_food_input`
(`food_parser.py` line 57), in the literal order of the regex. -/
def foodVerbs : List (List Char) :=
  ["ate".data, "had".data, "consumed".data, "eat".data, "have".data,
   "am having".data, "am eating".data]

/-- The time-of-day alternation of the second prefix pattern (line 58). -/
def timeMarkers : List (List Char) :=
  ["today".data, "this morning".data, "this afternoon".data,
   "this evening".data]

/-- The meal-name alternation used by the third and fourth prefix patterns
(lines 59–60) and by the embedded timing-qualifier pattern (line 88). -/
def mealNames : List (List Char) :=
  ["breakfast".data, "lunch".data, "dinner".data, "snack".data]

/-- Lines 63–65: the four prefix substitutions applied one after another,
each followed by `.strip()`. -/
def stripScaffold (s : List Char) : List Char :=
  let s1 := trimChars (stripHeadAlts "i ".data foodVerbs s)
  let s2 := trimChars (stripHeadAlts [] timeMarkers s1)
  let s3 := trimChars (stripHeadAlts "for ".data mealNames s2)
  trimChars (stripHeadAlts "my ".data mealNames s3)

/-- Python `str.split(delim)` (left-to-right, non-overlapping, keeping empty
fragments), fuelled by the input length so the recursion is structural. -/
def splitGo (delim : List Char) : ℕ → List Char → List Char →
    List (List Char)
  | _, acc, [] => [acc.reverse]
  | 0, acc, rest => [acc.reverse ++ rest]
  | fuel + 1, acc, rest =>
    if delim.isPrefixOf rest then
      acc.reverse :: splitGo delim fuel [] (rest.drop delim.length)
    else
      match rest with
      | [] => [acc.reverse]
      | c :: rs => splitGo delim fuel (c :: acc) rs

/-- Python `s.split(delim)` for a non-empty delimiter. -/
def listSplitOn (delim s : List Char) : List (List Char) :=
  splitGo delim s.length [] s

/-- Python `sub in s` (substring containment). -/
def hasSubstr (sub : List Char) : List Char → Bool
  | [] => sub.isEmpty
  | c :: rest => sub.isPrefixOf (c :: rest) || hasSubstr sub rest

/-- Lines 68–79: the delimiter cascade — comma first, then the literal
`" and "`, then semicolon, else the whole remainder as a single item; every
fragment is stripped. -/
def splitItems (cleaned : List Char) : List (List Char) :=
  if cleaned.contains ',' then (listSplitOn [','] cleaned).map trimChars
  else if hasSubstr " and ".data cleaned then
    (listSplitOn " and ".data cleaned).map trimChars
  else if cleaned.contains ';' then (listSplitOn [';'] cleaned).map trimChars
  else [trimChars cleaned]

/-- The determiner alternation of line 85, in regex order. -/
def determiners : List (List Char) :=
  ["some".data, "a".data, "an".data, "the".data]

/-- Whether `^<d>\s+` matches at the start of `item`: the determiner must be
followed by at least one whitespace character. -/
def detMatches (item d : List Char) : Bool :=
  d.isPrefixOf item &&
    (match item.drop d.length with
     | c :: _ => isSpace c
     | [] => false)

/-- Line 85: `re.sub(r'^(?:some|a|an|the)\s+', '', item)` — the first
alternative whose trailing `\s+` also matches wins, and the determiner with
the whole greedy whitespace run is removed. -/
def stripDeterminer (item : List Char) : List Char :=
  match determiners.find? (fun d => detMatches item d) with
  | some d => (item.drop d.length).dropWhile isSpace
  | none => item

/-- The head alternation of the timing pattern of line 88, in regex order. -/
def timingHeads : List (List Char) := ["for".data, "at".data, "during".data]

/-- The continuation `\s+(?:breakfast|lunch|dinner|snack)` of the timing
pattern: number of characters it consumes, or `none` when it fails. -/
def timingTailLen (rest : List Char) : Option ℕ :=
  let ws := rest.takeWhile isSpace
  if ws.isEmpty then none
  else
    let after := rest.drop ws.length
    match mealNames.find? (fun m => m.isPrefixOf after) with
    | some m => some (ws.length + m.length)
    | none => none

/-- Whether `(?:for|at|during)\s+(?:breakfast|lunch|dinner|snack)` matches at
the start of `l`; returns the matched length. -/
def matchTiming (l : List Char) : Option ℕ :=
  match timingHeads.find?
      (fun w => w.isPrefixOf l && (timingTailLen (l.drop w.length)).isSome) with
  | some w =>
    match timingTailLen (l.drop w.length) with
    | some k => some (w.length + k)
    | none => none
  | none => none

/-- Line 88: the unanchored `re.sub` removing every (left-to-right,
non-overlapping) timing-qualifier match, fuelled by the input length. -/
def removeTimingGo : ℕ → List Char → List Char
  | _, [] => []
  | 0, l => l
  | fuel + 1, c :: rest =>
    match matchTiming (c :: rest) with
    | some k => removeTimingGo fuel ((c :: rest).drop k)
    | none => c :: removeTimingGo fuel rest

/-- Line 88 as a whole-string operation. -/
def removeTiming (l : List Char) : List Char := removeTimingGo l.length l

/-- Lines 83–91 for one fragment: strip a leading determiner, `.strip()`,
remove timing qualifiers, `.strip()`. -/
def cleanupItem (item : List Char) : List Char :=
  trimChars (removeTiming (trimChars (stripDeterminer item)))

/-- `parse_food_input` (`food_parser.py` lines 45–93): lowercase, strip the
scaffold prefixes, split on the delimiter cascade, clean each fragment and
drop the empty ones. -/
def parse_food_input (message : String) : List String :=
  let cleaned := stripScaffold (lowerList message.data)
  let items := splitItems cleaned
  ((items.map cleanupItem).filter (fun l => !l.isEmpty)).map
    (fun l => String.mk l)

/-! ### Portion extraction (`extract_portion_info`, lines 95–128) -/

/-- The unit alternation of the numeric-quantity pattern (line 108), in its
literal order. -/
def unitsNumeric : List (List Char) :=
  ["cup".data, "cups".data, "oz".data, "ounces".data, "tbsp".data,
   "tablespoons".data, "tsp".data, "teaspoons".data, "g".data, "grams".data,
   "lb".data, "pounds".data, "slice".data, "slices".data, "piece".data,
   "pieces".data]

/-- The unit alternation of the article pattern (line 110), in its literal
order. -/
def unitsArticle : List (List Char) :=
  ["cup".data, "oz".data, "ounce".data, "tbsp".data, "tablespoon".data,
   "tsp".data, "teaspoon".data, "g".data, "gram".data, "lb".data,
   "pound".data, "slice".data, "piece".data]

/-- The continuation `\s+(?:of\s+)?(.+)` that follows a unit token in both
patterns, with the backtracking behaviour of Python's `re`: the mandatory
whitespace run, the optional `of` (taken when possible, given up when the
final group would be left empty), and the non-empty captured food name. -/
def afterUnit (r : List Char) : Option (List Char) :=
  let w1 := (r.takeWhile isSpace).length
  if w1 = 0 then none
  else
    let rest0 := r.drop w1
    if "of".data.isPrefixOf rest0 then
      let r2 := rest0.drop 2
      let w2 := (r2.takeWhile isSpace).length
      if w2 = 0 then some rest0
      else if w2 < r2.length then some (r2.drop w2)
      else if 2 ≤ w2 then some (r2.drop (w2 - 1))
      else some rest0
    else if rest0.isEmpty then
      if 2 ≤ w1 then some (r.drop (w1 - 1)) else none
    else some rest0

/-- Regex alternation over unit tokens with the shared continuation: the
first alternative that matches at the start of `rest` and whose continuation
succeeds wins; returns the unit and the captured food name. -/
def findUnit (units : List (List Char)) (rest : List Char) :
    Option (List Char × List Char) :=
  match units with
  | [] => none
  | u :: us =>
    if u.isPrefixOf rest then
      match afterUnit (rest.drop u.length) with
      | some food => some (u, food)
      | none => findUnit us rest
    else findUnit us rest

/-- Value of a non-empty digit run. -/
def digitsVal (ds : List Char) : ℕ :=
  ds.foldl (fun n c => 10 * n + (c.toNat - Char.toNat '0')) 0

/-- The leading group `(\d+(?:\.\d+)?)` of the numeric pattern together with
Python's `float` conversion of the captured text: a greedy digit run and an
optional fractional part. -/
def parseQuantity (l : List Char) : Option (ℚ × List Char) :=
  let ds := l.takeWhile Char.isDigit
  if ds.isEmpty then none
  else
    let rest1 := l.drop ds.length
    match rest1 with
    | '.' :: r =>
      let fs := r.takeWhile Char.isDigit
      if fs.isEmpty then some ((digitsVal ds : ℚ), rest1)
      else some ((digitsVal ds : ℚ) + (digitsVal fs : ℚ) / (10 : ℚ) ^ fs.length,
        r.drop fs.length)
    | _ => some ((digitsVal ds : ℚ), rest1)

/-- `re.match` of the numeric-quantity pattern (line 108):
`(\d+(?:\.\d+)?)\s+(<units>)\s+(?:of\s+)?(.+)`. -/
def matchPatternA (l : List Char) : Option (ℚ × List Char × List Char) :=
  match parseQuantity l with
  | none => none
  | some (q, rest1) =>
    let ws := (rest1.takeWhile isSpace).length
    if ws = 0 then none
    else
      match findUnit unitsNumeric (rest1.drop ws) with
      | some (u, food) => some (q, u, food)
      | none => none

/-- One article alternative of the pattern of line 110, with its full
continuation. -/
def matchArticle (art l : List Char) : Option (List Char × List Char) :=
  if art.isPrefixOf l then
    let rest := l.drop art.length
    let ws := (rest.takeWhile isSpace).length
    if ws = 0 then none
    else findUnit unitsArticle (rest.drop ws)
  else none

/-- `re.match` of the article pattern (line 110):
`(?:a|an)\s+(<units>)\s+(?:of\s+)?(.+)` — the alternative `a` is tried with
its full continuation before `an`. -/
def matchPatternB (l : List Char) : Option (List Char × List Char) :=
  match matchArticle "a".data l with
  | some r => some r
  | none => matchArticle "an".data l

/-- `extract_portion_info` (lines 95–128): the numeric pattern first, then
the article pattern (quantity defaulting to 1), and on no match the original
phrase verbatim with quantity and unit both `none`. -/
def extract_portion_info (food_item : String) :
    String × Option ℚ × Option String :=
  match matchPatternA food_item.data with
  | some (q, u, food) => (String.mk food, some q, some (String.mk u))
  | none =>
    match matchPatternB food_item.data with
    | some (u, food) => (String.mk food, some 1, some (String.mk u))
    | none => (food_item, none, none)

/-! ### Date resolution (`utils/date_helpers.py`, `parse_date`)

Calendar dates are integers (a day count) and `d.weekday()` becomes
`d % 7` — Monday = 0 up to a global alignment that no claim depends on.
The external `dateutil.parser.parse` fallback of lines 69–74 is passed as an
explicit `general` parameter returning `none` on failure (the code converts
any exception into `None`). -/

/-- The weekday table of lines 47–50. -/
def weekdayTable : List (String × ℤ) :=
  [("monday", 0), ("tuesday", 1), ("wednesday", 2), ("thursday", 3),
   ("friday", 4), ("saturday", 5), ("sunday", 6)]

/-- `re.match(r'(\d+) days? ago', s)` (lines 41–44): a prefix match — a
greedy leading digit run, then `" day"`, an optional `"s"`, then `" ago"`;
anything may follow the match.  Returns the captured integer. -/
def daysAgoMatch (l : List Char) : Option ℤ :=
  let ds := l.takeWhile Char.isDigit
  if ds.isEmpty then none
  else
    let rest := l.drop ds.length
    if " days ago".data.isPrefixOf rest || " day ago".data.isPrefixOf rest then
      some (digitsVal ds : ℤ)
    else none

/-- `re.match(r'<head>(monday|...|sunday)', s)` (lines 52 and 60): a prefix
match — the literal head, then the first weekday name of the alternation
that is a prefix of the remainder; returns its table index. -/
def weekdayAfter (head l : List Char) : Option ℤ :=
  if head.isPrefixOf l then
    let rest := l.drop head.length
    match weekdayTable.find? (fun p => p.1.data.isPrefixOf rest) with
    | some p => some p.2
    | none => none
  else none

/-- Lines 53–58: `days_ago = (today.weekday() - target_weekday) % 7`,
promoted to 7 when it is 0, subtracted from today. -/
def lastWeekday (today target : ℤ) : ℤ :=
  today - (if (today % 7 - target) % 7 = 0 then 7 else (today % 7 - target) % 7)

/-- Lines 61–66: `days_ahead = (target_weekday - today.weekday()) % 7`,
promoted to 7 when it is 0, added to today. -/
def nextWeekday (today target : ℤ) : ℤ :=
  today + (if (target - today % 7) % 7 = 0 then 7 else (target - today % 7) % 7)

/-- The branch cascade of `parse_date` on the lowered and stripped input
(lines 24–74). -/
def parse_date_core (today : ℤ) (general : String → Option ℤ)
    (d : List Char) : Option ℤ :=
  if d = "today".data ∨ d = "now".data then some today
  else if d = "yesterday".data ∨ d = "last day".data then some (today - 1)
  else if d = "tomorrow".data then some (today + 1)
  else if d = "this week".data then some (today - today % 7)
  else if d = "last week".data then some (today - (today % 7 + 7))
  else
    match daysAgoMatch d with
    | some n => some (today - n)
    | none =>
      match weekdayAfter "last ".data d with
      | some t => some (lastWeekday today t)
      | none =>
        match weekdayAfter "next ".data d with
        | some t => some (nextWeekday today t)
        | none => general (String.mk d)

/-- `parse_date` (lines 8–74): a falsy (empty) input yields today before any
normalisation; otherwise the input is lowered, stripped and fed to the
branch cascade. -/
def parse_date (today : ℤ) (general : String → Option ℤ)
    (s : String) : Option ℤ :=
  if s.data.isEmpty then some today
  else parse_date_core today general (trimChars (lowerList s.data))

/-- No relative-date branch of `parse_date` fires on the normalised input
`d`: it is none of the literal tokens, and the days-ago, last-weekday and
next-weekday prefix matches all fail. -/
def noRelativeForm (d : List Char) : Prop :=
  d ≠ "today".data ∧ d ≠ "now".data ∧ d ≠ "yesterday".data ∧
  d ≠ "last day".data ∧ d ≠ "tomorrow".data ∧ d ≠ "this week".data ∧
  d ≠ "last week".data ∧ daysAgoMatch d = none ∧
  weekdayAfter "last ".data d = none ∧ weekdayAfter "next ".data d = none

instance (d : List Char) : Decidable (noRelativeForm d) := by
  unfold noRelativeForm
  infer_instance

/-! ### Weekly trend (`nutrition_analyzer.py`, `get_weekly_trend`)

The external `get_daily_entries` store is passed as an explicit `fetch`
parameter.  The report is the structured content of the assembled text:
the iterated days, the per-day calorie and protein sums, the averages, the
optional trend statement and the optional variability statement
(`some true` = "varies significantly", `some false` = "consistent"). -/

inductive TrendDir
  | increasing
  | decreasing
  deriving DecidableEq

structure WeeklyReport where
  days : List ℤ
  daily_calories : List ℚ
  daily_protein : List ℚ
  avg_calories : Option ℚ
  avg_protein : Option ℚ
  trend : Option TrendDir
  varies : Option Bool
  deriving DecidableEq

/-- The `while current_date <= end_date` loop of lines 140–154, fuelled by
its exact iteration count so that the recursion is structural. -/
def weekDaysGo : ℕ → ℤ → ℤ → List ℤ
  | 0, _, _ => []
  | fuel + 1, cur, endD =>
    if cur ≤ endD then cur :: weekDaysGo fuel (cur + 1) endD else []

/-- The list of days the loop visits, oldest first. -/
def weekDays (start endD : ℤ) : List ℤ :=
  weekDaysGo (endD + 1 - start).toNat start endD

/-- Line 145: `sum(entry['nutrition_data'].get('calories', 0) or 0 ...)` —
a missing key, a stored `None` and a stored 0 all contribute 0. -/
def dayCalories (fetch : ℤ → List FoodEntry) (d : ℤ) : ℚ :=
  ((fetch d).map (fun e => (e.nutrition_data Nutrient.calories).getD 0)).sum

/-- Line 146, the protein analogue. -/
def dayProtein (fetch : ℤ → List FoodEntry) (d : ℤ) : ℚ :=
  ((fetch d).map (fun e => (e.nutrition_data Nutrient.protein).getD 0)).sum

/-- Python `max(list)` on a non-empty list (the `[]` case is unreachable
under the non-emptiness guard of line 157). -/
def listMax : List ℚ → ℚ
  | [] => 0
  | c :: r => r.foldl max c

/-- Python `min(list)` on a non-empty list. -/
def listMin : List ℚ → ℚ
  | [] => 0
  | c :: r => r.foldl min c

/-- `get_weekly_trend` (lines 118–181) over the 7 consecutive days ending at
`endD`: per-day sums, averages when any day was iterated, and — only when at
least 7 days were collected — the trend statement for `|delta| > 200` and
the variability classification at threshold 500. -/
def get_weekly_trend (fetch : ℤ → List FoodEntry) (endD : ℤ) : WeeklyReport :=
  let start := endD - 6
  let days := weekDays start endD
  let dc := days.map (dayCalories fetch)
  let dp := days.map (dayProtein fetch)
  { days := days,
    daily_calories := dc,
    daily_protein := dp,
    avg_calories :=
      if dc.isEmpty then none else some (dc.sum / (dc.length : ℚ)),
    avg_protein :=
      if dc.isEmpty then none else some (dp.sum / (dp.length : ℚ)),
    trend :=
      if dc.isEmpty then none
      else if 7 ≤ dc.length then
        if 200 < |dc.getLastD 0 - dc.headD 0| then
          some (if 0 < dc.getLastD 0 - dc.headD 0 then TrendDir.increasing
            else TrendDir.decreasing)
        else none
      else none,
    varies :=
      if dc.isEmpty then none
      else if 7 ≤ dc.length then
        some (decide (500 < listMax dc - listMin dc))
      else none }

/-- The calorie sequence of the spec's weekly example, one value per day
0..6. -/
def exampleCal (d : ℤ) : ℚ :=
  if d = 0 then 1800 else if d = 1 then 1900 else if d = 2 then 2000
  else if d = 3 then 2100 else if d = 4 then 2200 else if d = 5 then 2300
  else if d = 6 then 2400 else 0

/-- A concrete entry store realising the example calorie sequence. -/
def exampleFetch (d : ℤ) : List FoodEntry :=
  [⟨"meal", 12, fun k => match k with
    | Nutrient.calories => some (exampleCal d)
    | _ => some 0⟩]

/-! ## Theorems -/

section AnalyzerLemmas

theorem addNutrient_fst (tf : Totals × Bool) (n : NutrientRecord)
    (k j : Nutrient) :
    (addNutrient tf n k).1 j =
      if j = k then tf.1 j + ((n k).getD 0) else tf.1 j := by
  unfold addNutrient
  cases hk : n k with
  | none => simp
  | some v =>
    simp only [updateTotal, Option.getD_some]
    by_cases hj : j = k
    · subst hj; simp
    · simp [hj]

theorem addNutrient_snd (tf : Totals × Bool) (n : NutrientRecord)
    (k : Nutrient) :
    (addNutrient tf n k).2 = (tf.2 || decide (n k = none)) := by
  unfold addNutrient
  cases hk : n k with
  | none => simp
  | some v => simp

theorem accumEntry_fst (tf : Totals × Bool) (n : NutrientRecord)
    (j : Nutrient) :
    (accumEntry tf n).1 j = tf.1 j + ((n j).getD 0) := by
  cases j <;>
    simp [accumEntry, nutrientKeys, List.foldl_cons, List.foldl_nil,
      addNutrient_fst]

theorem accumEntry_snd (tf : Totals × Bool) (n : NutrientRecord) :
    ((accumEntry tf n).2 = true ↔
      tf.2 = true ∨ ∃ k : Nutrient, n k = none) := by
  simp only [accumEntry, nutrientKeys, List.foldl_cons, List.foldl_nil,
    addNutrient_snd, Bool.or_eq_true, decide_eq_true_eq]
  constructor
  · rintro (((((((h | h) | h) | h) | h) | h) | h) | h)
    · exact Or.inl h
    all_goals exact Or.inr ⟨_, h⟩
  · rintro (h | ⟨k, hk⟩)
    · tauto
    · cases k <;> tauto

theorem nutritionTotals_go_fst (l : List FoodEntry) :
    ∀ (tf : Totals × Bool) (j : Nutrient),
      ((l.foldl (fun acc e => accumEntry acc e.nutrition_data) tf).1) j =
        tf.1 j + (l.map (fun e => (e.nutrition_data j).getD 0)).sum := by
  induction l with
  | nil => intro tf j; simp
  | cons e t ih =>
    intro tf j
    simp only [List.foldl_cons, List.map_cons, List.sum_cons, ih,
      accumEntry_fst]
    ring

theorem nutritionTotals_go_snd (l : List FoodEntry) :
    ∀ tf : Totals × Bool,
      ((l.foldl (fun acc e => accumEntry acc e.nutrition_data) tf).2 = true ↔
        tf.2 = true ∨ ∃ e ∈ l, ∃ k : Nutrient, e.nutrition_data k = none) := by
  induction l with
  | nil => intro tf; simp
  | cons e t ih =>
    intro tf
    simp only [List.foldl_cons, ih, accumEntry_snd, List.mem_cons]
    constructor
    · rintro ((h | ⟨k, hk⟩) | ⟨a, ha, k, hk⟩)
      · exact Or.inl h
      · exact Or.inr ⟨e, Or.inl rfl, k, hk⟩
      · exact Or.inr ⟨a, Or.inr ha, k, hk⟩
    · rintro (h | ⟨a, (rfl | ha), k, hk⟩)
      · exact Or.inl (Or.inl h)
      · exact Or.inl (Or.inr ⟨k, hk⟩)
      · exact Or.inr ⟨a, ha, k, hk⟩

end AnalyzerLemmas

/-- C1: for every non-empty entry list the analyzer's seven nutrient totals
are the arithmetic sums of the present values (a missing or null field
contributes 0), and the report's incomplete-data flag is set if and only if
some field of some entry was missing or null. -/
theorem claim_C1 (entries : List FoodEntry) (g : Option ℚ)
    (h : entries ≠ []) :
    ∃ r, analyze_daily_nutrition entries g = some r ∧
      (∀ k : Nutrient,
        r.totals k = (entries.map (fun e => (e.nutrition_data k).getD 0)).sum) ∧
      (r.incomplete = true ↔
        ∃ e ∈ entries, ∃ k : Nutrient, e.nutrition_data k = none) := by
  cases entries with
  | nil => exact absurd rfl h
  | cons e t =>
    refine ⟨_, rfl, ?_, ?_⟩
    · intro k
      simpa using nutritionTotals_go_fst (e :: t) ((fun _ => 0 : Totals), false) k
    · simpa using nutritionTotals_go_snd (e :: t) ((fun _ => 0 : Totals), false)

/-- Witness for C1 at the concrete two-entry day
`[entryAllTwo, entryNoSodium]` (the second entry has a missing sodium
field). -/
theorem claim_C1_witness :
    ([entryAllTwo, entryNoSodium] ≠ ([] : List FoodEntry)) ∧
    ∃ r, analyze_daily_nutrition [entryAllTwo, entryNoSodium] none = some r ∧
      (∀ k : Nutrient,
        r.totals k =
          (([entryAllTwo, entryNoSodium]).map
            (fun e => (e.nutrition_data k).getD 0)).sum) ∧
      (r.incomplete = true ↔
        ∃ e ∈ [entryAllTwo, entryNoSodium],
          ∃ k : Nutrient, e.nutrition_data k = none) :=
  ⟨by simp, claim_C1 [entryAllTwo, entryNoSodium] none (by simp)⟩

theorem macroRatio_sum (t : Totals) (hpos : 0 < macroCalories t) :
    ∃ p c f, macroRatio t = some (p, c, f) ∧ p + c + f = 100 := by
  refine ⟨t Nutrient.protein * 4 / macroCalories t * 100,
    t Nutrient.carbohydrates * 4 / macroCalories t * 100,
    t Nutrient.fat * 9 / macroCalories t * 100, ?_, ?_⟩
  · simp only [macroRatio]
    rw [if_pos hpos]
  · have hne : macroCalories t ≠ 0 := ne_of_gt hpos
    unfold macroCalories at hne ⊢
    field_simp
    ring

/-- C2, counterexample: on a day whose single entry has no nutrition data the
macro-calorie sum is 0, yet the report carries no macro percentages at all —
in particular they are not reported as `(0, 0, 0)` as the claim states. -/
theorem claim_C2_counterexample :
    ∃ r, analyze_daily_nutrition [entryNoData] none = some r ∧
      macroCalories r.totals = 0 ∧
      r.macro_ratio = none ∧
      ¬ r.macro_ratio = some (0, 0, 0) := by
  have h1 : nutritionTotals [entryNoData] = ((fun _ => 0 : Totals), true) := rfl
  refine ⟨_, rfl, ?_, ?_, ?_⟩
  · show macroCalories (nutritionTotals [entryNoData]).1 = 0
    rw [h1]
    norm_num [macroCalories]
  · show macroRatio (nutritionTotals [entryNoData]).1 = none
    rw [h1]
    simp [macroRatio, macroCalories]
  · show ¬ macroRatio (nutritionTotals [entryNoData]).1 = some (0, 0, 0)
    rw [h1]
    simp [macroRatio, macroCalories]

/-- C2 (amended): for every non-empty entry list, when the macro-calorie sum
(protein·4 + carbs·4 + fat·9) is positive the reported macro percentages sum
to exactly 100; when the macro-calorie sum is 0 no macro ratio is reported at
all (the ratio is absent rather than `(0,0,0)`), and no division by zero is
ever performed. -/
theorem claim_C2 (entries : List FoodEntry) (g : Option ℚ)
    (h : entries ≠ []) :
    ∃ r, analyze_daily_nutrition entries g = some r ∧
      (0 < macroCalories r.totals →
        ∃ p c f, r.macro_ratio = some (p, c, f) ∧ p + c + f = 100) ∧
      (macroCalories r.totals = 0 → r.macro_ratio = none) := by
  cases entries with
  | nil => exact absurd rfl h
  | cons e t =>
    refine ⟨_, rfl, ?_, ?_⟩
    · intro hpos
      exact macroRatio_sum (nutritionTotals (e :: t)).1 hpos
    · intro h0
      have h02 : macroCalories (nutritionTotals (e :: t)).1 = 0 := h0
      show macroRatio (nutritionTotals (e :: t)).1 = none
      simp [macroRatio, h02]

/-- Witness for C2 at a concrete day whose entry has 2 g protein, 2 g carbs
and 2 g fat (macro-calorie sum 34 > 0). -/
theorem claim_C2_witness :
    ([entryAllTwo] ≠ ([] : List FoodEntry)) ∧
    ∃ r, analyze_daily_nutrition [entryAllTwo] none = some r ∧
      (0 < macroCalories r.totals →
        ∃ p c f, r.macro_ratio = some (p, c, f) ∧ p + c + f = 100) ∧
      (macroCalories r.totals = 0 → r.macro_ratio = none) :=
  ⟨by simp, claim_C2 [entryAllTwo] none (by simp)⟩

theorem itemsByMeal_go (m : Meal) (l : List FoodEntry) :
    ∀ acc : List String,
      (l.foldl
        (fun acc e => if mealOf e.hour = m then acc ++ [e.food_item] else acc)
        acc) =
        acc ++ (l.filter (fun e => decide (mealOf e.hour = m))).map
          (fun e => e.food_item) := by
  induction l with
  | nil => intro acc; simp
  | cons e t ih =>
    intro acc
    by_cases he : mealOf e.hour = m
    · simp [List.foldl_cons, he, ih, List.filter_cons]
    · simp [List.foldl_cons, he, ih, List.filter_cons]

/-- C7: every entry is bucketed purely by the hour of its timestamp through
the closed-open intervals [0,10) Breakfast, [10,14) Lunch, [14,18) Snacks,
[18,24) Dinner; each meal bucket of the report holds exactly the food names
of the entries whose hour falls in that bucket (in entry order), so every
entry lands in exactly one bucket; hour 9 (e.g. 09:59) is Breakfast and hour
10 (10:00) is Lunch. -/
theorem claim_C7 :
    (∀ h : ℕ, h < 24 →
      ((mealOf h = Meal.breakfast ↔ h < 10) ∧
       (mealOf h = Meal.lunch ↔ 10 ≤ h ∧ h < 14) ∧
       (mealOf h = Meal.snacks ↔ 14 ≤ h ∧ h < 18) ∧
       (mealOf h = Meal.dinner ↔ 18 ≤ h))) ∧
    mealOf 9 = Meal.breakfast ∧ mealOf 10 = Meal.lunch ∧
    (∀ (entries : List FoodEntry) (m : Meal),
      itemsByMeal entries m =
        (entries.filter (fun e => decide (mealOf e.hour = m))).map
          (fun e => e.food_item)) := by
  refine ⟨?_, by decide, by decide, ?_⟩
  · intro h hh
    refine ⟨?_, ?_, ?_, ?_⟩ <;> unfold mealOf <;> split_ifs <;>
      simp_all <;> omega
  · intro entries m
    simpa using itemsByMeal_go m entries []

/-- Witness for C7: the hour-interval characterisation applied at hour 9. -/
theorem claim_C7_witness :
    (9 < 24) ∧
    ((mealOf 9 = Meal.breakfast ↔ 9 < 10) ∧
     (mealOf 9 = Meal.lunch ↔ 10 ≤ 9 ∧ 9 < 14) ∧
     (mealOf 9 = Meal.snacks ↔ 14 ≤ 9 ∧ 9 < 18) ∧
     (mealOf 9 = Meal.dinner ↔ 18 ≤ 9)) :=
  ⟨by decide, claim_C7.1 9 (by decide)⟩

/-- C8: with a truthy calorie goal available, the report compares total
calories to the goal: strictly above the goal it reports the exact excess as
"over", otherwise the exact difference as "remaining"; at exact equality it
reports remaining 0, never "over". -/
theorem claim_C8 (entries : List FoodEntry) (goal : ℚ)
    (h : entries ≠ []) (hg : goal ≠ 0) :
    ∃ r, analyze_daily_nutrition entries (some goal) = some r ∧
      (goal < r.totals Nutrient.calories →
        r.goal_status =
          some (GoalStatus.over (r.totals Nutrient.calories - goal))) ∧
      (r.totals Nutrient.calories ≤ goal →
        r.goal_status =
          some (GoalStatus.remaining (goal - r.totals Nutrient.calories))) ∧
      (r.totals Nutrient.calories = goal →
        r.goal_status = some (GoalStatus.remaining 0)) := by
  cases entries with
  | nil => exact absurd rfl h
  | cons e t =>
    refine ⟨_, rfl, ?_, ?_, ?_⟩
    · intro hlt
      have hlt2 : goal < (nutritionTotals (e :: t)).1 Nutrient.calories := hlt
      show goalComparison ((nutritionTotals (e :: t)).1 Nutrient.calories)
        (some goal) = _
      simp only [goalComparison]
      rw [if_neg hg, if_pos hlt2]
    · intro hle
      have hle2 : (nutritionTotals (e :: t)).1 Nutrient.calories ≤ goal := hle
      show goalComparison ((nutritionTotals (e :: t)).1 Nutrient.calories)
        (some goal) = _
      simp only [goalComparison]
      rw [if_neg hg, if_neg (not_lt.mpr hle2)]
    · intro heq
      have heq2 : (nutritionTotals (e :: t)).1 Nutrient.calories = goal := heq
      show goalComparison ((nutritionTotals (e :: t)).1 Nutrient.calories)
        (some goal) = _
      simp only [goalComparison]
      rw [if_neg hg, if_neg (by rw [heq2]; exact lt_irrefl goal), heq2, sub_self]

/-- Witness for C8: one entry totalling 2 kcal against a goal of 5 kcal. -/
theorem claim_C8_witness :
    ([entryAllTwo] ≠ ([] : List FoodEntry)) ∧ ((5 : ℚ) ≠ 0) ∧
    ∃ r, analyze_daily_nutrition [entryAllTwo] (some 5) = some r ∧
      ((5 : ℚ) < r.totals Nutrient.calories →
        r.goal_status =
          some (GoalStatus.over (r.totals Nutrient.calories - 5))) ∧
      (r.totals Nutrient.calories ≤ 5 →
        r.goal_status =
          some (GoalStatus.remaining (5 - r.totals Nutrient.calories))) ∧
      (r.totals Nutrient.calories = 5 →
        r.goal_status = some (GoalStatus.remaining 0)) :=
  ⟨by simp, by norm_num, claim_C8 [entryAllTwo] 5 (by simp) (by norm_num)⟩

/-- C10: a stored calorie goal of exactly 0 is falsy in Python, so the
analyzer emits no goal comparison at all and the report is identical to the
report produced with no stored goal. -/
theorem claim_C10 (entries : List FoodEntry) (h : entries ≠ []) :
    analyze_daily_nutrition entries (some 0) =
      analyze_daily_nutrition entries none ∧
    (∀ r, analyze_daily_nutrition entries (some 0) = some r →
      r.goal_status = none) := by
  cases entries with
  | nil => exact absurd rfl h
  | cons e t =>
    constructor
    · simp [analyze_daily_nutrition, goalComparison]
    · intro r hr
      have hr2 := Option.some.inj hr
      rw [← hr2]
      simp [goalComparison]

/-- Witness for C10 at the concrete single-entry day `[entryAllTwo]`. -/
theorem claim_C10_witness :
    ([entryAllTwo] ≠ ([] : List FoodEntry)) ∧
    (analyze_daily_nutrition [entryAllTwo] (some 0) =
      analyze_daily_nutrition [entryAllTwo] none ∧
    (∀ r, analyze_daily_nutrition [entryAllTwo] (some 0) = some r →
      r.goal_status = none)) :=
  ⟨by simp, claim_C10 [entryAllTwo] (by simp)⟩

/-- C3: `parse_food_input` splits the prefix-stripped message on the first
delimiter found in priority order comma, then the literal `" and "`, then
semicolon, treating the whole remainder as one item when none is present;
on "I had oatmeal, a banana, and coffee" the comma wins over `" and "` and
the result is exactly ["oatmeal", "banana", "and coffee"], with "and coffee"
left fused to the last comma-delimited fragment. -/
theorem claim_C3 :
    parse_food_input "I had oatmeal, a banana, and coffee" =
      ["oatmeal", "banana", "and coffee"] ∧
    (∀ s : List Char, s.contains ',' = true →
      splitItems s = (listSplitOn [','] s).map trimChars) ∧
    (∀ s : List Char, s.contains ',' = false →
      hasSubstr " and ".data s = true →
      splitItems s = (listSplitOn " and ".data s).map trimChars) ∧
    (∀ s : List Char, s.contains ',' = false →
      hasSubstr " and ".data s = false → s.contains ';' = true →
      splitItems s = (listSplitOn [';'] s).map trimChars) ∧
    (∀ s : List Char, s.contains ',' = false →
      hasSubstr " and ".data s = false → s.contains ';' = false →
      splitItems s = [trimChars s]) := by
  refine ⟨by decide, ?_, ?_, ?_, ?_⟩
  · intro s h
    simp only [splitItems]
    rw [if_pos h]
  · intro s h1 h2
    simp only [splitItems]
    rw [if_neg (by rw [h1]; simp), if_pos h2]
  · intro s h1 h2 h3
    simp only [splitItems]
    rw [if_neg (by rw [h1]; simp), if_neg (by rw [h2]; simp), if_pos h3]
  · intro s h1 h2 h3
    simp only [splitItems]
    rw [if_neg (by rw [h1]; simp), if_neg (by rw [h2]; simp),
      if_neg (by rw [h3]; simp)]

/-- Witness for C3: the no-delimiter branch applied to the concrete fragment
"plain toast". -/
theorem claim_C3_witness :
    (("plain toast".data).contains ',' = false) ∧
    (hasSubstr " and ".data "plain toast".data = false) ∧
    (("plain toast".data).contains ';' = false) ∧
    splitItems "plain toast".data = [trimChars "plain toast".data] :=
  ⟨by decide, by decide, by decide,
    claim_C3.2.2.2.2 "plain toast".data (by decide) (by decide) (by decide)⟩

theorem findUnit_mem (units : List (List Char)) (rest u food : List Char)
    (h : findUnit units rest = some (u, food)) : u ∈ units := by
  induction units with
  | nil => simp [findUnit] at h
  | cons v us ih =>
    simp only [findUnit] at h
    split at h
    · split at h
      · simp only [Option.some.injEq, Prod.mk.injEq] at h
        rw [← h.1]
        exact List.mem_cons_self v us
      · exact List.mem_cons_of_mem v (ih h)
    · exact List.mem_cons_of_mem v (ih h)

theorem matchPatternA_unit (l : List Char) (q : ℚ) (u food : List Char)
    (h : matchPatternA l = some (q, u, food)) : u ∈ unitsNumeric := by
  unfold matchPatternA at h
  split at h
  · exact absurd h (by simp)
  · dsimp only at h
    split at h
    · exact absurd h (by simp)
    · split at h
      · rename_i u1 food1 hf
        simp only [Option.some.injEq, Prod.mk.injEq] at h
        rw [← h.2.1]
        exact findUnit_mem _ _ _ _ hf
      · exact absurd h (by simp)

theorem matchArticle_unit (art l u food : List Char)
    (h : matchArticle art l = some (u, food)) : u ∈ unitsArticle := by
  unfold matchArticle at h
  split at h
  · dsimp only at h
    split at h
    · exact absurd h (by simp)
    · exact findUnit_mem _ _ _ _ h
  · exact absurd h (by simp)

theorem matchPatternB_unit (l : List Char) (u food : List Char)
    (h : matchPatternB l = some (u, food)) : u ∈ unitsArticle := by
  unfold matchPatternB at h
  split at h
  · rename_i r ha
    have h2 := Option.some.inj h
    rw [h2] at ha
    exact matchArticle_unit _ _ _ _ ha
  · exact matchArticle_unit _ _ _ _ h

/-- C4: the numeric-quantity pattern is tried first, then the article
pattern with quantity defaulting to 1; the first success wins and on no
match the original phrase is returned verbatim with quantity and unit both
absent (`none`, a marker distinct from zero and from the empty string).
Concretely "2 cups of rice" gives ("rice", 2, "cups"), "an apple" gives
("an apple", none, none) since "apple" is not a known unit, and any reported
unit token comes from one of the two known unit alternations. -/
theorem claim_C4 :
    extract_portion_info "2 cups of rice" = ("rice", some 2, some "cups") ∧
    extract_portion_info "an apple" = ("an apple", none, none) ∧
    extract_portion_info "a cup of tea" = ("tea", some 1, some "cup") ∧
    (∀ s : String, matchPatternA s.data = none → matchPatternB s.data = none →
      extract_portion_info s = (s, none, none)) ∧
    (∀ (s n : String) (q : ℚ) (u : String),
      extract_portion_info s = (n, some q, some u) →
      u.data ∈ unitsNumeric ∨ u.data ∈ unitsArticle) ∧
    (∀ s : String, (extract_portion_info s).2.1 = none →
      extract_portion_info s = (s, none, none)) := by
  refine ⟨by decide, by decide, by decide, ?_, ?_, ?_⟩
  · intro s h1 h2
    simp [extract_portion_info, h1, h2]
  · intro s n q u h
    cases hA : matchPatternA s.data with
    | some v =>
      obtain ⟨q1, u1, f1⟩ := v
      rw [extract_portion_info] at h
      simp only [hA, Option.some.injEq, Prod.mk.injEq] at h
      left
      have hu : u.data = u1 := by rw [← h.2.2]
      rw [hu]
      exact matchPatternA_unit s.data q1 u1 f1 hA
    | none =>
      cases hB : matchPatternB s.data with
      | some v =>
        obtain ⟨u1, f1⟩ := v
        rw [extract_portion_info] at h
        simp only [hA, hB, Option.some.injEq, Prod.mk.injEq] at h
        right
        have hu : u.data = u1 := by rw [← h.2.2]
        rw [hu]
        exact matchPatternB_unit s.data u1 f1 hB
      | none =>
        rw [extract_portion_info] at h
        simp only [hA, hB, Prod.mk.injEq] at h
        exact absurd h.2.1 (by simp)
  · intro s h
    cases hA : matchPatternA s.data with
    | some v =>
      obtain ⟨q1, u1, f1⟩ := v
      rw [extract_portion_info] at h
      simp only [hA] at h
      exact absurd h (by simp)
    | none =>
      cases hB : matchPatternB s.data with
      | some v =>
        obtain ⟨u1, f1⟩ := v
        rw [extract_portion_info] at h
        simp only [hA, hB] at h
        exact absurd h (by simp)
      | none =>
        simp [extract_portion_info, hA, hB]

/-- Witness for C4: the fallback conjunct applied to the concrete phrase
"toast", on which both patterns fail. -/
theorem claim_C4_witness :
    (matchPatternA "toast".data = none) ∧
    (matchPatternB "toast".data = none) ∧
    extract_portion_info "toast" = ("toast", none, none) :=
  ⟨by decide, by decide, claim_C4.2.2.2.1 "toast" (by decide) (by decide)⟩

theorem parse_date_core_none (today : ℤ) (general : String → Option ℤ)
    (d : List Char) (hrel : noRelativeForm d)
    (hgen : general (String.mk d) = none) :
    parse_date_core today general d = none := by
  obtain ⟨h1, h2, h3, h4, h5, h6, h7, h8, h9, h10⟩ := hrel
  unfold parse_date_core
  rw [if_neg (by tauto), if_neg (by tauto), if_neg h5, if_neg h6, if_neg h7]
  simp only [h8, h9, h10]
  exact hgen

/-- C5: `parse_date` returns today on empty input; on a non-empty input on
which no relative-date branch fires and the general calendar parser fails it
returns `none` — never silently today; in particular "not a date" yields
`none` while "" yields today. -/
theorem claim_C5 (today : ℤ) (general : String → Option ℤ) :
    parse_date today general "" = some today ∧
    (∀ s : String, s.data ≠ [] →
      noRelativeForm (trimChars (lowerList s.data)) →
      general (String.mk (trimChars (lowerList s.data))) = none →
      parse_date today general s = none) ∧
    (general "not a date" = none →
      parse_date today general "not a date" = none) := by
  refine ⟨rfl, ?_, ?_⟩
  · intro s hne hrel hgen
    unfold parse_date
    rw [if_neg (by simpa using hne)]
    exact parse_date_core_none today general _ hrel hgen
  · intro hgen
    show parse_date_core today general (trimChars (lowerList "not a date".data)) = none
    exact parse_date_core_none today general _ (by decide) (by exact hgen)

/-- Witness for C5: with a general parser that always fails, "" resolves to
day 0 (today), and both "groceries" and "not a date" resolve to `none`. -/
theorem claim_C5_witness :
    parse_date 0 (fun _ => none) "" = some 0 ∧
    parse_date 0 (fun _ => none) "groceries" = none ∧
    parse_date 0 (fun _ => none) "not a date" = none :=
  ⟨(claim_C5 0 (fun _ => none)).1,
   (claim_C5 0 (fun _ => none)).2.1 "groceries" (by decide) (by decide) rfl,
   (claim_C5 0 (fun _ => none)).2.2 rfl⟩

theorem lastWeekday_spec (today t : ℤ) (h0 : 0 ≤ t) (h7 : t < 7) :
    lastWeekday today t % 7 = t ∧ lastWeekday today t < today ∧
    today - 7 ≤ lastWeekday today t ∧
    (today % 7 = t → lastWeekday today t = today - 7) ∧
    (∀ d : ℤ, d % 7 = t → d < today → d ≤ lastWeekday today t) := by
  unfold lastWeekday
  split_ifs with hz
  · exact ⟨by omega, by omega, by omega, fun _ => by omega,
      fun d hd hlt => by omega⟩
  · exact ⟨by omega, by omega, by omega, fun ht => by omega,
      fun d hd hlt => by omega⟩

theorem nextWeekday_spec (today t : ℤ) (h0 : 0 ≤ t) (h7 : t < 7) :
    nextWeekday today t % 7 = t ∧ today < nextWeekday today t ∧
    nextWeekday today t ≤ today + 7 ∧
    (today % 7 = t → nextWeekday today t = today + 7) ∧
    (∀ d : ℤ, d % 7 = t → today < d → nextWeekday today t ≤ d) := by
  unfold nextWeekday
  split_ifs with hz
  · exact ⟨by omega, by omega, by omega, fun _ => by omega,
      fun d hd hlt => by omega⟩
  · exact ⟨by omega, by omega, by omega, fun ht => by omega,
      fun d hd hlt => by omega⟩

/-- C6: for every weekday name w with table index t, `parse_date "last w"`
is the most recent date of weekday t strictly before today (exactly 7 back
when today has weekday t, and always 1..7 days back), and
`parse_date "next w"` is the nearest date of weekday t strictly after today
(exactly 7 forward when today has weekday t, and always 1..7 days
forward). -/
theorem claim_C6 (today : ℤ) (general : String → Option ℤ)
    (p : String × ℤ) (hp : p ∈ weekdayTable) :
    (∃ r, parse_date today general ("last " ++ p.1) = some r ∧
      r % 7 = p.2 ∧ r < today ∧ today - 7 ≤ r ∧
      (today % 7 = p.2 → r = today - 7) ∧
      (∀ d : ℤ, d % 7 = p.2 → d < today → d ≤ r)) ∧
    (∃ r, parse_date today general ("next " ++ p.1) = some r ∧
      r % 7 = p.2 ∧ today < r ∧ r ≤ today + 7 ∧
      (today % 7 = p.2 → r = today + 7) ∧
      (∀ d : ℤ, d % 7 = p.2 → today < d → r ≤ d)) := by
  fin_cases hp <;>
    exact ⟨⟨_, rfl, lastWeekday_spec today _ (by norm_num) (by norm_num)⟩,
      ⟨_, rfl, nextWeekday_spec today _ (by norm_num) (by norm_num)⟩⟩

/-- Witness for C6 at weekday "monday" (index 0) and today = 10. -/
theorem claim_C6_witness :
    ((("monday", (0 : ℤ)) ∈ weekdayTable) ∧
    ∃ r, parse_date 10 (fun _ => none) ("last " ++ "monday") = some r ∧
      r % 7 = 0 ∧ r < 10 ∧ 10 - 7 ≤ r ∧
      ((10 : ℤ) % 7 = 0 → r = 10 - 7) ∧
      (∀ d : ℤ, d % 7 = 0 → d < 10 → d ≤ r)) :=
  ⟨by decide, (claim_C6 10 (fun _ => none) ("monday", 0) (by decide)).1⟩

theorem weekDaysGo_succ (fuel : ℕ) (cur endD : ℤ) (h : cur ≤ endD) :
    weekDaysGo (fuel + 1) cur endD = cur :: weekDaysGo fuel (cur + 1) endD := by
  show (if cur ≤ endD then cur :: weekDaysGo fuel (cur + 1) endD else []) = _
  rw [if_pos h]

theorem weekDays_seven (e : ℤ) :
    weekDays (e - 6) e = [e - 6, e - 5, e - 4, e - 3, e - 2, e - 1, e] := by
  unfold weekDays
  rw [show (e + 1 - (e - 6)).toNat = 7 from by omega]
  rw [show (7 : ℕ) = 6 + 1 from rfl, weekDaysGo_succ _ _ _ (by omega)]
  rw [show (6 : ℕ) = 5 + 1 from rfl, weekDaysGo_succ _ _ _ (by omega)]
  rw [show (5 : ℕ) = 4 + 1 from rfl, weekDaysGo_succ _ _ _ (by omega)]
  rw [show (4 : ℕ) = 3 + 1 from rfl, weekDaysGo_succ _ _ _ (by omega)]
  rw [show (3 : ℕ) = 2 + 1 from rfl, weekDaysGo_succ _ _ _ (by omega)]
  rw [show (2 : ℕ) = 1 + 1 from rfl, weekDaysGo_succ _ _ _ (by omega)]
  rw [show (1 : ℕ) = 0 + 1 from rfl, weekDaysGo_succ _ _ _ (by omega)]
  simp only [weekDaysGo, List.cons.injEq, and_true, true_and]
  omega

theorem gwt_trend_eq (fetch : ℤ → List FoodEntry) (e : ℤ) :
    (get_weekly_trend fetch e).trend =
      (if 200 < |dayCalories fetch e - dayCalories fetch (e - 6)| then
        some (if 0 < dayCalories fetch e - dayCalories fetch (e - 6) then
          TrendDir.increasing else TrendDir.decreasing)
      else none) := by
  dsimp only [get_weekly_trend]
  rw [weekDays_seven e]
  simp [List.getLastD]

theorem gwt_varies_eq (fetch : ℤ → List FoodEntry) (e : ℤ) :
    (get_weekly_trend fetch e).varies =
      some (decide (500 < listMax (get_weekly_trend fetch e).daily_calories -
        listMin (get_weekly_trend fetch e).daily_calories)) := by
  dsimp only [get_weekly_trend]
  rw [weekDays_seven e]
  simp

theorem exampleDC : (get_weekly_trend exampleFetch 6).daily_calories =
    [1800, 1900, 2000, 2100, 2200, 2300, 2400] := by
  show (weekDays (6 - 6) 6).map (dayCalories exampleFetch) = _
  rw [weekDays_seven 6]
  norm_num [dayCalories, exampleFetch, exampleCal]

theorem exampleTrend :
    (get_weekly_trend exampleFetch 6).trend = some TrendDir.increasing := by
  rw [gwt_trend_eq]
  have h0 : dayCalories exampleFetch (6 - 6) = 1800 := by
    norm_num [dayCalories, exampleFetch, exampleCal]
  have h6 : dayCalories exampleFetch 6 = 2400 := by
    norm_num [dayCalories, exampleFetch, exampleCal]
  rw [h0, h6, show (2400 : ℚ) - 1800 = 600 from by norm_num,
    abs_of_pos (show (0 : ℚ) < 600 from by norm_num),
    if_pos (show (200 : ℚ) < 600 from by norm_num),
    if_pos (show (0 : ℚ) < 600 from by norm_num)]

theorem exampleVaries :
    (get_weekly_trend exampleFetch 6).varies = some true := by
  rw [gwt_varies_eq, exampleDC]
  have hmax : listMax [1800, 1900, 2000, 2100, 2200, 2300, 2400] = 2400 := by
    simp only [listMax, List.foldl_cons, List.foldl_nil]
    norm_num [max_def]
  have hmin : listMin [1800, 1900, 2000, 2100, 2200, 2300, 2400] = 1800 := by
    simp only [listMin, List.foldl_cons, List.foldl_nil]
    norm_num [min_def]
  rw [hmax, hmin]
  norm_num

theorem trend_iff (x : ℚ) :
    ((if 200 < |x| then
        some (if 0 < x then TrendDir.increasing else TrendDir.decreasing)
      else none) = some TrendDir.increasing ↔ 200 < x) ∧
    ((if 200 < |x| then
        some (if 0 < x then TrendDir.increasing else TrendDir.decreasing)
      else none) = some TrendDir.decreasing ↔ x < -200) ∧
    ((if 200 < |x| then
        some (if 0 < x then TrendDir.increasing else TrendDir.decreasing)
      else none) = none ↔ |x| ≤ 200) := by
  by_cases h1 : 200 < |x|
  · by_cases h2 : 0 < x
    · rw [if_pos h1, if_pos h2]
      refine ⟨?_, ?_, ?_⟩
      · refine ⟨fun _ => ?_, fun _ => rfl⟩
        rcases lt_abs.mp h1 with h | h
        · exact h
        · linarith
      · refine ⟨fun hc => ?_, fun hc => ?_⟩
        · simp at hc
        · exact absurd h2 (by linarith)
      · refine ⟨fun hc => ?_, fun hc => ?_⟩
        · simp at hc
        · exact absurd h1 (not_lt.mpr hc)
    · rw [if_pos h1, if_neg h2]
      have hneg : x < -200 := by
        rcases lt_abs.mp h1 with h | h
        · linarith
        · linarith
      refine ⟨?_, ?_, ?_⟩
      · refine ⟨fun hc => ?_, fun hc => ?_⟩
        · simp at hc
        · linarith
      · exact ⟨fun _ => hneg, fun _ => rfl⟩
      · refine ⟨fun hc => ?_, fun hc => ?_⟩
        · simp at hc
        · exact absurd h1 (not_lt.mpr hc)
  · rw [if_neg h1]
    have hle : |x| ≤ 200 := not_lt.mp h1
    refine ⟨?_, ?_, ?_⟩
    · refine ⟨fun hc => ?_, fun hc => ?_⟩
      · simp at hc
      · exact absurd hc (not_lt.mpr (abs_le.mp hle).2)
    · refine ⟨fun hc => ?_, fun hc => ?_⟩
      · simp at hc
      · exact absurd hc (not_lt.mpr (abs_le.mp hle).1)
    · exact ⟨fun _ => hle, fun _ => rfl⟩

/-- C9: `get_weekly_trend` iterates exactly the 7 consecutive days ending at
`end_date`, oldest to newest, never skipping a day; a day with no entries
contributes a zero sum; a trend direction is reported iff the last day's
calories minus the first day's exceed 200 in absolute value (increasing for
positive delta, decreasing for negative); variability is "varies
significantly" (`some true`) iff max minus min daily calories exceeds 500
and "consistent" (`some false`) otherwise; the two checks are independent
and the sequence 1800..2400 triggers both "increasing" and "varies
significantly". -/
theorem claim_C9 (fetch : ℤ → List FoodEntry) (e : ℤ) :
    (get_weekly_trend fetch e).days =
      [e - 6, e - 5, e - 4, e - 3, e - 2, e - 1, e] ∧
    (get_weekly_trend fetch e).daily_calories =
      [e - 6, e - 5, e - 4, e - 3, e - 2, e - 1, e].map (dayCalories fetch) ∧
    (∀ d, fetch d = [] → dayCalories fetch d = 0) ∧
    ((get_weekly_trend fetch e).trend = some TrendDir.increasing ↔
      200 < dayCalories fetch e - dayCalories fetch (e - 6)) ∧
    ((get_weekly_trend fetch e).trend = some TrendDir.decreasing ↔
      dayCalories fetch e - dayCalories fetch (e - 6) < -200) ∧
    ((get_weekly_trend fetch e).trend = none ↔
      |dayCalories fetch e - dayCalories fetch (e - 6)| ≤ 200) ∧
    ((get_weekly_trend fetch e).varies = some true ↔
      500 < listMax (get_weekly_trend fetch e).daily_calories -
        listMin (get_weekly_trend fetch e).daily_calories) ∧
    ((get_weekly_trend fetch e).varies = some false ↔
      listMax (get_weekly_trend fetch e).daily_calories -
        listMin (get_weekly_trend fetch e).daily_calories ≤ 500) ∧
    (get_weekly_trend exampleFetch 6).daily_calories =
      [1800, 1900, 2000, 2100, 2200, 2300, 2400] ∧
    (get_weekly_trend exampleFetch 6).trend = some TrendDir.increasing ∧
    (get_weekly_trend exampleFetch 6).varies = some true := by
  have hdays : (get_weekly_trend fetch e).days =
      [e - 6, e - 5, e - 4, e - 3, e - 2, e - 1, e] := by
    show weekDays (e - 6) e = _
    exact weekDays_seven e
  have hdc : (get_weekly_trend fetch e).daily_calories =
      [e - 6, e - 5, e - 4, e - 3, e - 2, e - 1, e].map (dayCalories fetch) := by
    show (weekDays (e - 6) e).map (dayCalories fetch) = _
    rw [weekDays_seven e]
  refine ⟨hdays, hdc, ?_, ?_, ?_, ?_, ?_, ?_, exampleDC, exampleTrend,
    exampleVaries⟩
  · intro d h
    simp [dayCalories, h]
  · rw [gwt_trend_eq]
    exact (trend_iff _).1
  · rw [gwt_trend_eq]
    exact (trend_iff _).2.1
  · rw [gwt_trend_eq]
    exact (trend_iff _).2.2
  · rw [gwt_varies_eq]
    simp
  · rw [gwt_varies_eq]
    simp

end NutriTrack
